import Mathlib

/-!
Verification of the batch-ledger core of `src/production_app.py` (single-file
factory order-tracking app). The ledger is a list of batch rows; operations
(create order, move batch, bulk move, manage-data edit) are shallowly embedded
as pure functions on that list, following the source handlers line by line.

Modelling conventions:
* A pandas row becomes the structure `Batch`; column values are `String`s,
  `Total Qty` is `Nat` — the regime of the clamped quantity inputs and of the
  aggregation views; the Create Order review editor's raw, *unclamped* quantity
  cells (any integer, or blank/NaN) are modelled separately by `RawDraftRow`.
  `Due Date` is `Option Int` (a day number; `none` models NaT / missing).
* `uuid.uuid4()[:8]` fresh ids are passed in as explicit parameters.
* Streamlit feedback calls (`st.error`, `st.toast`, `st.success`) become
  outcome constructors, so "error" vs "warning" vs "success" is observable.
-/

namespace ProductionApp

/-- The fixed stage list `STAGES` of the source (8 ordered production stages). -/
def STAGES : List String :=
  ["1- In Pipeline",
   "2- Sublimation",
   "3- Cutting",
   "4- Print / Emb.",
   "5- Stitching",
   "6- Checking",
   "7- Packing",
   "8- Shipped"]

/-- Stage ordinal, as computed by `STAGES.index(stage)` in the source with the
`except: curr_idx = 0` fallback for a stage string not in the list. -/
def stageIndex (s : String) : Nat :=
  (STAGES.findIdx? (fun t => t == s)).getD 0

/-- One ledger row (one size variant at one stage), mirroring the CSV columns
`Unique ID, Order ID, Client, Due Date, Priority, Product Name, Color,
Article No, Size Variant, Total Qty, Current Stage, Notes`. -/
structure Batch where
  uniqueId : String
  orderId : String
  client : String
  dueDate : Option Int
  priority : String
  productName : String
  color : String
  articleNo : String
  sizeVariant : String
  totalQty : Nat
  currentStage : String
  notes : String
deriving DecidableEq, Repr

/-- `calculate_status(row)` from the source: stage checks first, then date
arithmetic on `days_left = (due - date.today()).days`. -/
def calculate_status (currentStage : String) (dueDate : Option Int) (today : Int) : String :=
  if currentStage == "8- Shipped" then "Shipped"
  else if currentStage == "7- Packing" then "Completed"
  else
    match dueDate with
    | none => "Unknown"
    | some due =>
      let days_left := due - today
      if days_left < 0 then "OVERDUE"
      else if days_left ≤ 3 then "CRITICAL"
      else "Normal"

/-- C7: `calculate_status` returns Shipped for stage 8- Shipped (regardless of
due date, so a Shipped batch with a past due date is never OVERDUE), Completed
for 7- Packing, Unknown for a missing due date, and otherwise classifies by
`days_left = due - today`: negative → OVERDUE, ≤ 3 → CRITICAL, else Normal.
Stage checks short-circuit before any date arithmetic. -/
theorem calculate_status_spec :
    (∀ (d : Option Int) (today : Int), calculate_status "8- Shipped" d today = "Shipped") ∧
    (∀ (d today : Int), d - today < 0 →
      calculate_status "8- Shipped" (some d) today ≠ "OVERDUE") ∧
    (∀ (d : Option Int) (today : Int), calculate_status "7- Packing" d today = "Completed") ∧
    (∀ (s : String) (today : Int), s ≠ "8- Shipped" → s ≠ "7- Packing" →
      calculate_status s none today = "Unknown") ∧
    (∀ (s : String) (d today : Int), s ≠ "8- Shipped" → s ≠ "7- Packing" →
      d - today < 0 → calculate_status s (some d) today = "OVERDUE") ∧
    (∀ (s : String) (d today : Int), s ≠ "8- Shipped" → s ≠ "7- Packing" →
      0 ≤ d - today → d - today ≤ 3 → calculate_status s (some d) today = "CRITICAL") ∧
    (∀ (s : String) (d today : Int), s ≠ "8- Shipped" → s ≠ "7- Packing" →
      3 < d - today → calculate_status s (some d) today = "Normal") := by
  refine ⟨fun d today => rfl, fun d today _ => by simp [calculate_status], fun d today => rfl,
    ?_, ?_, ?_, ?_⟩
  · intro s today h1 h2
    simp [calculate_status, h1, h2]
  · intro s d today h1 h2 hneg
    simp [calculate_status, h1, h2, hneg]
  · intro s d today h1 h2 h0 h3
    simp [calculate_status, h1, h2, not_lt.mpr h0, h3]
  · intro s d today h1 h2 h3
    have h4 : ¬ (d - today < 0) := by omega
    have h5 : ¬ (d - today ≤ 3) := by omega
    simp [calculate_status, h1, h2, h4, h5]

/-- Witness for `calculate_status_spec` at concrete inputs. -/
theorem calculate_status_spec_witness :
    calculate_status "8- Shipped" (some (-10)) 0 = "Shipped" ∧
    calculate_status "8- Shipped" (some (-10)) 0 ≠ "OVERDUE" ∧
    calculate_status "3- Cutting" (some (-1)) 0 = "OVERDUE" ∧
    calculate_status "3- Cutting" (some 2) 0 = "CRITICAL" ∧
    calculate_status "3- Cutting" (some 9) 0 = "Normal" ∧
    calculate_status "3- Cutting" none 0 = "Unknown" :=
  ⟨calculate_status_spec.1 (some (-10)) 0,
   calculate_status_spec.2.1 (-10) 0 (by decide),
   calculate_status_spec.2.2.2.2.1 "3- Cutting" (-1) 0 (by decide) (by decide) (by decide),
   calculate_status_spec.2.2.2.2.2.1 "3- Cutting" 2 0 (by decide) (by decide) (by decide) (by decide),
   calculate_status_spec.2.2.2.2.2.2 "3- Cutting" 9 0 (by decide) (by decide) (by decide),
   calculate_status_spec.2.2.2.1 "3- Cutting" 0 (by decide) (by decide)⟩

/-! ## Individual Move handler (ORDER DASHBOARD → Individual Actions) -/

/-- Outcome of the individual Move button: `blocked` models `st.error("🚫 Blocked.")`,
`sameStage` models the `st.toast("Change stage.")` warning, `moved` models a saved
update, `notFound` is unreachable in the UI (the row is iterated from the ledger). -/
inductive MoveOutcome where
  | blocked
  | sameStage
  | moved
  | notFound
deriving DecidableEq, Repr

/-- The individual Move handler of the source: look up the clicked row by
`Unique ID`; reject a backward move (`STAGES.index(new_stage) < curr_idx`);
warn on a same-stage move; otherwise either a full move (stage update in place,
`move_qty == row['Total Qty']`) or a split (row keeps its stage with quantity
reduced by `move_qty`, and a fresh-id row with quantity `move_qty` at the new
stage is appended by `pd.concat`). -/
def moveBatch (df : List Batch) (bid : String) (newStage : String) (moveQty : Nat)
    (freshId : String) : MoveOutcome × List Batch :=
  match df.find? (fun b => b.uniqueId == bid) with
  | none => (.notFound, df)
  | some row =>
    let currIdx := stageIndex row.currentStage
    if stageIndex newStage < currIdx then (.blocked, df)
    else if newStage == row.currentStage then (.sameStage, df)
    else if moveQty == row.totalQty then
      (.moved, df.map (fun b => if b.uniqueId == bid then { b with currentStage := newStage } else b))
    else
      (.moved,
        (df.map (fun b => if b.uniqueId == bid then { b with totalQty := row.totalQty - moveQty } else b)) ++
        [{ row with uniqueId := freshId, totalQty := moveQty, currentStage := newStage }])

/-- One press of the Move button: the target stage, the quantity entered in the
number input (UI-clamped to `1 ≤ q ≤ row qty`), and the fresh id a split would use. -/
structure MoveCall where
  newStage : String
  moveQty : Nat
  freshId : String

/-- A sequence of Move presses on the batch `bid`. -/
def applyMoves (df : List Batch) (bid : String) (calls : List MoveCall) : List Batch :=
  calls.foldl (fun d c => (moveBatch d bid c.newStage c.moveQty c.freshId).2) df

/-- The stage ordinal of the (first) row with id `bid`, if present. -/
def stageOrdAt (df : List Batch) (bid : String) : Option Nat :=
  (df.find? (fun b => b.uniqueId == bid)).map (fun b => stageIndex b.currentStage)

lemma find?_map_id_preserving (df : List Batch) (bid : String) (f : Batch → Batch)
    (hf : ∀ b, (f b).uniqueId = b.uniqueId) :
    (df.map f).find? (fun b => b.uniqueId == bid) =
      (df.find? (fun b => b.uniqueId == bid)).map f := by
  rw [List.find?_map]
  have hp : ((fun b : Batch => b.uniqueId == bid) ∘ f) = (fun b : Batch => b.uniqueId == bid) :=
    funext fun b => by simp [Function.comp, hf b]
  rw [hp]

/-- One Move press never lowers the stage ordinal of the row with id `bid`. -/
lemma stageOrd_mono_step (df : List Batch) (bid newStage : String) (moveQty : Nat)
    (freshId : String) (n : Nat) (h : stageOrdAt df bid = some n) :
    ∃ m, stageOrdAt (moveBatch df bid newStage moveQty freshId).2 bid = some m ∧ n ≤ m := by
  unfold stageOrdAt at h ⊢
  cases hfind : df.find? (fun b => b.uniqueId == bid) with
  | none => simp [hfind] at h
  | some row =>
    rw [hfind] at h
    replace h : stageIndex row.currentStage = n := by simpa using h
    subst h
    have hrow : (row.uniqueId == bid) = true := by
      have hx := List.find?_some hfind
      simpa using hx
    by_cases hlt : stageIndex newStage < stageIndex row.currentStage
    · have hres : (moveBatch df bid newStage moveQty freshId).2 = df := by
        simp [moveBatch, hfind, hlt]
      rw [hres, hfind]
      exact ⟨_, rfl, le_refl _⟩
    · by_cases heq : newStage = row.currentStage
      · have hres : (moveBatch df bid newStage moveQty freshId).2 = df := by
          simp [moveBatch, hfind, hlt, heq]
        rw [hres, hfind]
        exact ⟨_, rfl, le_refl _⟩
      · by_cases hq : moveQty = row.totalQty
        · -- full move: the row's stage becomes `newStage`, and ¬(new < curr)
          have hpres : ∀ b : Batch,
              (if b.uniqueId == bid then { b with currentStage := newStage } else b).uniqueId =
                b.uniqueId := by
            intro b; by_cases hb : b.uniqueId == bid <;> simp [hb]
          have hres : (moveBatch df bid newStage moveQty freshId).2 =
              df.map (fun b => if b.uniqueId == bid then { b with currentStage := newStage } else b) := by
            simp [moveBatch, hfind, hlt, heq, hq]
          rw [hres, find?_map_id_preserving df bid _ hpres, hfind]
          refine ⟨stageIndex newStage, ?_, by omega⟩
          have hb : row.uniqueId = bid := by simpa using hrow
          simp [hb]
        · -- split: the row keeps its stage; the appended row has id `freshId ≠ bid`
          have hpres : ∀ b : Batch,
              (if b.uniqueId == bid then { b with totalQty := row.totalQty - moveQty } else b).uniqueId =
                b.uniqueId := by
            intro b; by_cases hb : b.uniqueId == bid <;> simp [hb]
          have hres : (moveBatch df bid newStage moveQty freshId).2 =
              (df.map (fun b => if b.uniqueId == bid then { b with totalQty := row.totalQty - moveQty } else b)) ++
              [{ row with uniqueId := freshId, totalQty := moveQty, currentStage := newStage }] := by
            simp [moveBatch, hfind, hlt, heq, hq]
          rw [hres, List.find?_append, find?_map_id_preserving df bid _ hpres, hfind]
          refine ⟨stageIndex row.currentStage, ?_, le_refl _⟩
          have hb : row.uniqueId = bid := by simpa using hrow
          simp [hb]

/-- C5: a Move press whose target stage has a strictly lower ordinal than the
row's current stage is rejected (`st.error("🚫 Blocked.")`, modelled by the
`blocked` outcome) with the whole ledger returned unchanged; and consequently,
over any sequence of Move presses on one batch id (with fresh split ids distinct
from that id) the batch's stage ordinal never decreases. -/
theorem backward_move_rejected_and_stage_monotone :
    (∀ (df : List Batch) (bid newStage : String) (moveQty : Nat) (freshId : String) (row : Batch),
      df.find? (fun b => b.uniqueId == bid) = some row →
      stageIndex newStage < stageIndex row.currentStage →
      moveBatch df bid newStage moveQty freshId = (.blocked, df)) ∧
    (∀ (df : List Batch) (bid : String) (calls : List MoveCall),
      ∀ n, stageOrdAt df bid = some n →
      ∃ m, stageOrdAt (applyMoves df bid calls) bid = some m ∧ n ≤ m) := by
  constructor
  · intro df bid newStage moveQty freshId row hfind hlt
    simp [moveBatch, hfind, hlt]
  · intro df bid calls
    induction calls generalizing df with
    | nil => exact fun n h => ⟨n, h, le_refl n⟩
    | cons c cs ih =>
      intro n h
      obtain ⟨m, hm, hnm⟩ :=
        stageOrd_mono_step df bid c.newStage c.moveQty c.freshId n h
      obtain ⟨m', hm', hmm'⟩ := ih _ m hm
      exact ⟨m', hm', le_trans hnm hmm'⟩

/-- Witness for `backward_move_rejected_and_stage_monotone`: a batch at
3- Cutting cannot be moved back to 1- In Pipeline, and a concrete forward
sequence keeps the ordinal ≥ 2. -/
theorem backward_move_rejected_and_stage_monotone_witness :
    moveBatch [⟨"b1", "O1", "Nike", none, "Normal", "Hoodie", "Black", "HD-X", "M", 10,
        "3- Cutting", ""⟩] "b1" "1- In Pipeline" 10 "f9" =
      (.blocked, [⟨"b1", "O1", "Nike", none, "Normal", "Hoodie", "Black", "HD-X", "M", 10,
        "3- Cutting", ""⟩]) ∧
    (∃ m, stageOrdAt
        (applyMoves [⟨"b1", "O1", "Nike", none, "Normal", "Hoodie", "Black", "HD-X", "M", 10,
          "3- Cutting", ""⟩] "b1" [⟨"5- Stitching", 4, "f2"⟩]) "b1" = some m ∧ 2 ≤ m) :=
  ⟨backward_move_rejected_and_stage_monotone.1
      [⟨"b1", "O1", "Nike", none, "Normal", "Hoodie", "Black", "HD-X", "M", 10, "3- Cutting", ""⟩]
      "b1" "1- In Pipeline" 10 "f9"
      ⟨"b1", "O1", "Nike", none, "Normal", "Hoodie", "Black", "HD-X", "M", 10, "3- Cutting", ""⟩
      (by decide) (by decide),
   backward_move_rejected_and_stage_monotone.2
      [⟨"b1", "O1", "Nike", none, "Normal", "Hoodie", "Black", "HD-X", "M", 10, "3- Cutting", ""⟩]
      "b1" [⟨"5- Stitching", 4, "f2"⟩] 2 (by decide)⟩

/-- C6: moving a batch to its own current stage is a pure no-op: the ledger is
returned unchanged (so quantity, stage and batch count are unchanged) and the
outcome is the `sameStage` warning (`st.toast`), not the `blocked` error
(`st.error`). -/
theorem same_stage_move_is_noop :
    ∀ (df : List Batch) (bid : String) (moveQty : Nat) (freshId : String) (row : Batch),
      df.find? (fun b => b.uniqueId == bid) = some row →
      (moveBatch df bid row.currentStage moveQty freshId).1 = .sameStage ∧
      (moveBatch df bid row.currentStage moveQty freshId).2 = df ∧
      (moveBatch df bid row.currentStage moveQty freshId).2.length = df.length ∧
      MoveOutcome.sameStage ≠ MoveOutcome.blocked := by
  intro df bid moveQty freshId row hfind
  have hlt : ¬ stageIndex row.currentStage < stageIndex row.currentStage := lt_irrefl _
  refine ⟨?_, ?_, ?_, by decide⟩ <;>
    simp [moveBatch, hfind, hlt]

/-- Witness for `same_stage_move_is_noop` on a concrete one-row ledger. -/
theorem same_stage_move_is_noop_witness :
    (moveBatch [⟨"b1", "O1", "Nike", none, "Normal", "Hoodie", "Black", "HD-X", "M", 10,
        "3- Cutting", ""⟩] "b1" "3- Cutting" 4 "f1").2 =
      [⟨"b1", "O1", "Nike", none, "Normal", "Hoodie", "Black", "HD-X", "M", 10,
        "3- Cutting", ""⟩] :=
  (same_stage_move_is_noop
    [⟨"b1", "O1", "Nike", none, "Normal", "Hoodie", "Black", "HD-X", "M", 10, "3- Cutting", ""⟩]
    "b1" 4 "f1"
    ⟨"b1", "O1", "Nike", none, "Normal", "Hoodie", "Black", "HD-X", "M", 10, "3- Cutting", ""⟩
    (by decide)).2.1

/-- C4: a valid partial move of `k` pieces (`0 < k < q`) to a strictly later
stage splits the batch: the ledger grows by exactly one row; every row with the
batch's id keeps its id and stage and now has quantity `q - k`; every other
pre-existing row is untouched; the appended row has the fresh id, quantity `k`,
the target stage, and the same order/product/color/article/size/due-date/notes
as the original; the two quantities sum to `q`; and (given the fresh id is new)
exactly one row of the result carries it. -/
theorem split_move_spec :
    ∀ (df : List Batch) (bid newStage : String) (k : Nat) (freshId : String) (row : Batch),
      df.find? (fun b => b.uniqueId == bid) = some row →
      1 ≤ k → k < row.totalQty →
      stageIndex row.currentStage < stageIndex newStage →
      (∀ b ∈ df, b.uniqueId ≠ freshId) →
      (moveBatch df bid newStage k freshId).1 = .moved ∧
      (moveBatch df bid newStage k freshId).2.length = df.length + 1 ∧
      (∃ j : Nat, df[j]? = some row) ∧
      (∀ j (hj : j < df.length), df[j].uniqueId ≠ bid →
        ((moveBatch df bid newStage k freshId).2)[j]? = some df[j]) ∧
      (∀ j (hj : j < df.length), df[j].uniqueId = bid →
        ((moveBatch df bid newStage k freshId).2)[j]? =
          some { df[j] with totalQty := row.totalQty - k }) ∧
      (∃ n, ((moveBatch df bid newStage k freshId).2)[df.length]? = some n ∧
        n.uniqueId = freshId ∧ n.totalQty = k ∧ n.currentStage = newStage ∧
        n.orderId = row.orderId ∧ n.productName = row.productName ∧ n.color = row.color ∧
        n.articleNo = row.articleNo ∧ n.sizeVariant = row.sizeVariant ∧
        n.dueDate = row.dueDate ∧ n.notes = row.notes ∧
        (row.totalQty - k) + n.totalQty = row.totalQty) ∧
      (((moveBatch df bid newStage k freshId).2).filter (fun b => b.uniqueId == freshId)).length = 1 := by
  intro df bid newStage k freshId row hfind hk1 hklt hstage hfresh
  have hlt : ¬ stageIndex newStage < stageIndex row.currentStage := by omega
  have heq : ¬ newStage = row.currentStage := by
    intro hcontra
    rw [hcontra] at hstage
    exact lt_irrefl _ hstage
  have hq : ¬ k = row.totalQty := by omega
  have hout : (moveBatch df bid newStage k freshId).1 = .moved := by
    simp [moveBatch, hfind, hlt, heq, hq]
  have hres : (moveBatch df bid newStage k freshId).2 =
      (df.map (fun b => if b.uniqueId == bid then { b with totalQty := row.totalQty - k } else b)) ++
      [{ row with uniqueId := freshId, totalQty := k, currentStage := newStage }] := by
    simp [moveBatch, hfind, hlt, heq, hq]
  refine ⟨hout, ?_, ?_, ?_, ?_, ?_, ?_⟩
  · simp [hres]
  · obtain ⟨-, as, bs, hsplit, -⟩ := List.find?_eq_some.mp hfind
    refine ⟨as.length, ?_⟩
    rw [hsplit, List.getElem?_append_right (le_refl as.length)]
    simp
  · intro j hj hne
    rw [hres, List.getElem?_append_left (by simpa using hj), List.getElem?_map,
      List.getElem?_eq_getElem hj]
    simp [hne]
  · intro j hj hbid
    rw [hres, List.getElem?_append_left (by simpa using hj), List.getElem?_map,
      List.getElem?_eq_getElem hj]
    simp [hbid]
  · refine ⟨{ row with uniqueId := freshId, totalQty := k, currentStage := newStage }, ?_,
      rfl, rfl, rfl, rfl, rfl, rfl, rfl, rfl, rfl, rfl, by show row.totalQty - k + k = row.totalQty; omega⟩
    rw [hres]
    have hlen : df.length =
        (df.map (fun b => if b.uniqueId == bid then { b with totalQty := row.totalQty - k } else b)).length := by
      simp
    rw [hlen, List.getElem?_concat_length]
  · rw [hres, List.filter_append]
    have h1 : (df.map (fun b => if b.uniqueId == bid then { b with totalQty := row.totalQty - k } else b)).filter
        (fun b => b.uniqueId == freshId) = [] := by
      rw [List.filter_eq_nil_iff]
      intro a ha
      obtain ⟨b, hb, hba⟩ := List.mem_map.mp ha
      have hid : a.uniqueId = b.uniqueId := by
        subst hba
        by_cases hcase : b.uniqueId == bid <;> simp [hcase]
      simp [hid, hfresh b hb]
    rw [h1]
    simp

/-- Witness for `split_move_spec`: moving 4 of 10 pieces from
1- In Pipeline to 3- Cutting. -/
theorem split_move_spec_witness :
    (moveBatch [⟨"b1", "O1", "Nike", none, "Normal", "Hoodie", "Black", "HD-X", "M", 10,
        "1- In Pipeline", ""⟩] "b1" "3- Cutting" 4 "f2").1 = .moved ∧
    (moveBatch [⟨"b1", "O1", "Nike", none, "Normal", "Hoodie", "Black", "HD-X", "M", 10,
        "1- In Pipeline", ""⟩] "b1" "3- Cutting" 4 "f2").2.length = 2 ∧
    (∃ n, ((moveBatch [⟨"b1", "O1", "Nike", none, "Normal", "Hoodie", "Black", "HD-X", "M", 10,
        "1- In Pipeline", ""⟩] "b1" "3- Cutting" 4 "f2").2)[1]? = some n ∧
      n.uniqueId = "f2" ∧ n.totalQty = 4 ∧ n.currentStage = "3- Cutting" ∧
      n.orderId = "O1" ∧ n.productName = "Hoodie" ∧ n.color = "Black" ∧
      n.articleNo = "HD-X" ∧ n.sizeVariant = "M" ∧ n.dueDate = none ∧ n.notes = "" ∧
      (10 - 4) + n.totalQty = 10) := by
  have T := split_move_spec
    [⟨"b1", "O1", "Nike", none, "Normal", "Hoodie", "Black", "HD-X", "M", 10, "1- In Pipeline", ""⟩]
    "b1" "3- Cutting" 4 "f2"
    ⟨"b1", "O1", "Nike", none, "Normal", "Hoodie", "Black", "HD-X", "M", 10, "1- In Pipeline", ""⟩
    (by decide) (by decide) (by decide) (by decide)
    (by intro b hb; simp at hb; subst hb; decide)
  exact ⟨T.1, T.2.1, T.2.2.2.2.2.1⟩

/-! ## Bulk move (ORDER DASHBOARD → Bulk Action → "Move ALL ⏩") -/

/-- The `Display_Name` column: `Product Name (Color)`. -/
def displayName (b : Batch) : String :=
  b.productName ++ " (" ++ b.color ++ ")"

/-- `ids_to_move` of the bulk handler: ids of the selected order/product rows
whose stage is not `8- Shipped` (`active_prod_df`). The handler filters on
nothing else — in particular not on the target stage's ordinal. -/
def activeProdIds (df : List Batch) (oid pdisp : String) : List String :=
  (df.filter (fun b => b.orderId == oid && displayName b == pdisp &&
    b.currentStage != "8- Shipped")).map (fun b => b.uniqueId)

/-- The Move ALL handler:
`df.loc[df['Unique ID'].isin(ids_to_move), 'Current Stage'] = bulk_stage`. -/
def bulkMove (df : List Batch) (idsToMove : List String) (bulkStage : String) : List Batch :=
  df.map (fun b => if idsToMove.contains b.uniqueId then { b with currentStage := bulkStage } else b)

/-- A concrete batch at stage 6- Checking, used to exhibit bulk-move regression. -/
def checkingBatch : Batch :=
  ⟨"b1", "O1", "Nike", none, "Normal", "Hoodie", "Black", "HD-X", "M", 10, "6- Checking", ""⟩

/-- C1 is false on the code: the bulk handler never compares stage ordinals, so
a batch in the id set whose current stage ordinal exceeds the target's is *not*
left unchanged — it regresses. Concretely, a batch at 6- Checking (ordinal 5)
bulk-moved to 3- Cutting (ordinal 2) does not survive unchanged in the result. -/
theorem bulk_move_regression_counterexample :
    ¬ (∀ (df : List Batch) (ids : List String) (t : String),
        ∀ b ∈ df, b.uniqueId ∈ ids → stageIndex t < stageIndex b.currentStage →
        b ∈ bulkMove df ids t) := by
  intro hclaim
  have h := hclaim [checkingBatch] ["b1"] "3- Cutting" checkingBatch
    (by decide) (by decide) (by decide)
  exact absurd h (by decide)

/-- C1 amended: the bulk move applies a full move to *every* batch in the id
set, unconditionally: the ledger keeps its length; a row whose id is in the set
gets `Current Stage := target` with every other field (in particular quantity)
unchanged — even when its current stage ordinal exceeds the target's, so such a
batch regresses; a row whose id is not in the set is untouched; and the id set
contains exactly the ids of the selected order/product's non-Shipped rows. -/
theorem bulk_move_full_move_on_id_set :
    ∀ (df : List Batch) (oid pdisp t : String),
      (bulkMove df (activeProdIds df oid pdisp) t).length = df.length ∧
      (∀ j (hj : j < df.length),
        df[j].uniqueId ∈ activeProdIds df oid pdisp →
          (bulkMove df (activeProdIds df oid pdisp) t)[j]? =
            some { df[j] with currentStage := t }) ∧
      (∀ j (hj : j < df.length),
        df[j].uniqueId ∉ activeProdIds df oid pdisp →
          (bulkMove df (activeProdIds df oid pdisp) t)[j]? = some df[j]) ∧
      (∀ b ∈ df, b.orderId = oid → displayName b = pdisp → b.currentStage ≠ "8- Shipped" →
        b.uniqueId ∈ activeProdIds df oid pdisp) ∧
      (∀ id ∈ activeProdIds df oid pdisp, ∃ b ∈ df, b.uniqueId = id ∧ b.orderId = oid ∧
        displayName b = pdisp ∧ b.currentStage ≠ "8- Shipped") := by
  intro df oid pdisp t
  refine ⟨by simp [bulkMove], ?_, ?_, ?_, ?_⟩
  · intro j hj hmem
    rw [bulkMove, List.getElem?_map, List.getElem?_eq_getElem hj]
    simp [hmem]
  · intro j hj hmem
    rw [bulkMove, List.getElem?_map, List.getElem?_eq_getElem hj]
    simp [hmem]
  · intro b hb h1 h2 h3
    simp only [activeProdIds, List.mem_map, List.mem_filter]
    exact ⟨b, ⟨hb, by simp [h1, h2, h3]⟩, rfl⟩
  · intro id hid
    simp only [activeProdIds, List.mem_map, List.mem_filter] at hid
    obtain ⟨b, ⟨hb, hcond⟩, hbid⟩ := hid
    simp only [Bool.and_eq_true, beq_iff_eq, bne_iff_ne, ne_eq] at hcond
    exact ⟨b, hb, hbid, hcond.1.1, hcond.1.2, hcond.2⟩

/-- Witness for `bulk_move_full_move_on_id_set`: a two-row ledger where the
6- Checking row is bulk-moved (regressing) to 3- Cutting and the Shipped row is
left alone. -/
theorem bulk_move_full_move_on_id_set_witness :
    ((bulkMove [checkingBatch,
        ⟨"b2", "O1", "Nike", none, "Normal", "Hoodie", "Black", "HD-X", "L", 5, "8- Shipped", ""⟩]
      (activeProdIds [checkingBatch,
        ⟨"b2", "O1", "Nike", none, "Normal", "Hoodie", "Black", "HD-X", "L", 5, "8- Shipped", ""⟩]
        "O1" "Hoodie (Black)") "3- Cutting")[0]? =
      some { checkingBatch with currentStage := "3- Cutting" }) ∧
    ((bulkMove [checkingBatch,
        ⟨"b2", "O1", "Nike", none, "Normal", "Hoodie", "Black", "HD-X", "L", 5, "8- Shipped", ""⟩]
      (activeProdIds [checkingBatch,
        ⟨"b2", "O1", "Nike", none, "Normal", "Hoodie", "Black", "HD-X", "L", 5, "8- Shipped", ""⟩]
        "O1" "Hoodie (Black)") "3- Cutting")[1]? =
      some ⟨"b2", "O1", "Nike", none, "Normal", "Hoodie", "Black", "HD-X", "L", 5, "8- Shipped", ""⟩) := by
  have T := bulk_move_full_move_on_id_set
    [checkingBatch,
      ⟨"b2", "O1", "Nike", none, "Normal", "Hoodie", "Black", "HD-X", "L", 5, "8- Shipped", ""⟩]
    "O1" "Hoodie (Black)" "3- Cutting"
  exact ⟨T.2.1 0 (by decide) (by decide), T.2.2.1 1 (by decide) (by decide)⟩

/-! ## ORDER DASHBOARD derived order totals -/

/-- `total_target = order_data['Total Qty'].sum()`. -/
def totalTarget (orderData : List Batch) : Nat :=
  (orderData.map (fun b => b.totalQty)).sum

/-- `completed_qty`: the quantity sum over the order's rows at 7- Packing or
8- Shipped. -/
def completedQty (orderData : List Batch) : Nat :=
  ((orderData.filter (fun b =>
      b.currentStage == "7- Packing" || b.currentStage == "8- Shipped")).map
    (fun b => b.totalQty)).sum

/-- `pending_qty = total_target - completed_qty`, floored at 0 by
`if pending_qty < 0: pending_qty = 0` (truncated `Nat` subtraction is exactly
this floor). -/
def pendingQty (orderData : List Batch) : Nat :=
  totalTarget orderData - completedQty orderData

/-- `prog_pct = completed_qty / total_target if total_target > 0 else 0`. -/
def progPct (orderData : List Batch) : ℚ :=
  if 0 < totalTarget orderData then
    (completedQty orderData : ℚ) / (totalTarget orderData : ℚ)
  else 0

lemma sum_map_filter_le (l : List Batch) (p : Batch → Bool) :
    ((l.filter p).map (fun b => b.totalQty)).sum ≤ (l.map (fun b => b.totalQty)).sum := by
  induction l with
  | nil => simp
  | cons a l ih =>
    by_cases hp : p a <;> simp [hp] <;> omega

/-- C10: for every order's rows, completed ≤ target, completed + pending =
target, pending ≤ target, and the progress fraction is completed/target for a
positive target and 0 for a zero target (no division by zero). -/
theorem order_totals_spec :
    ∀ orderData : List Batch,
      completedQty orderData ≤ totalTarget orderData ∧
      completedQty orderData + pendingQty orderData = totalTarget orderData ∧
      pendingQty orderData ≤ totalTarget orderData ∧
      (totalTarget orderData = 0 → progPct orderData = 0) ∧
      (0 < totalTarget orderData →
        progPct orderData = (completedQty orderData : ℚ) / (totalTarget orderData : ℚ)) := by
  intro orderData
  have hle : completedQty orderData ≤ totalTarget orderData :=
    sum_map_filter_le orderData _
  refine ⟨hle, ?_, ?_, ?_, ?_⟩
  · unfold pendingQty; omega
  · unfold pendingQty; omega
  · intro h0; simp [progPct, h0]
  · intro hpos; simp [progPct, hpos]

/-- A concrete two-row order (6 pcs at 3- Cutting, 4 pcs at 7- Packing). -/
def sampleOrder : List Batch :=
  [⟨"b1", "O1", "Nike", none, "Normal", "Hoodie", "Black", "HD-X", "M", 6, "3- Cutting", ""⟩,
   ⟨"b2", "O1", "Nike", none, "Normal", "Hoodie", "Black", "HD-X", "L", 4, "7- Packing", ""⟩]

/-- Witness for `order_totals_spec` on `sampleOrder`. -/
theorem order_totals_spec_witness :
    completedQty sampleOrder + pendingQty sampleOrder = totalTarget sampleOrder ∧
    progPct sampleOrder = (4 : ℚ) / 10 := by
  have T := order_totals_spec sampleOrder
  refine ⟨T.2.1, ?_⟩
  rw [T.2.2.2.2 (by decide)]
  have h1 : completedQty sampleOrder = 4 := by decide
  have h2 : totalTarget sampleOrder = 10 := by decide
  rw [h1, h2]
  norm_num

/-! ## Create Order: draft building (Add to List) and final save -/

/-- One row of the in-session `order_draft` (product, color, article, size,
quantity, per-line due date, notes). The `Nat` quantity covers the clamped
regime (Add to List builds rows from `number_input`s with `min_value=0` and
appends only positive ones); the review editor's raw, unclamped `Total Qty`
cells are modelled by `RawDraftRow`. -/
structure DraftRow where
  productName : String
  color : String
  articleNo : String
  sizeVariant : String
  totalQty : Nat
  dueDate : Option Int
  notes : String
deriving DecidableEq, Repr

/-- Outcome of the "Add to List ⬇️" button: `duplicateBlocked` models the
`st.warning("... (Duplicate Blocked)")` branch, `added` a successful append,
`ignored` the no-op when the product name is empty or the size total is 0. -/
inductive AddOutcome where
  | duplicateBlocked
  | added
  | ignored
deriving DecidableEq, Repr

/-- `check_color = p_color if p_color else "Std"`. -/
def checkColor (pColor : String) : String :=
  if pColor == "" then "Std" else pColor

/-- The Add to List handler: if the product name is nonempty and the entered
size quantities have a positive total, reject the product group when some draft
item already has the same (Product Name, Color, Article No); otherwise append
one draft row per size with a positive quantity. -/
def addToList (draft : List DraftRow) (pName pColor artNo : String)
    (sizeInputs : List (String × Nat)) (pDueDate : Option Int) : AddOutcome × List DraftRow :=
  let total := (sizeInputs.map (fun sq => sq.2)).sum
  if pName != "" && total > 0 then
    if draft.any (fun it => it.productName == pName && it.color == checkColor pColor &&
        it.articleNo == artNo) then
      (.duplicateBlocked, draft)
    else
      (.added, draft ++ (sizeInputs.filter (fun sq => sq.2 > 0)).map (fun sq =>
        ⟨pName, checkColor pColor, artNo, sq.1, sq.2, pDueDate, ""⟩))
  else (.ignored, draft)

/-- Outcome of "✅ SAVE FINAL ORDER": `duplicateOrderId` models the
`⛔ STOP: The Order ID already exists!` rejection (the save button is gated on
`is_duplicate`), `missingOrderId` and `emptyList` the two `st.error` branches,
`saved` a successful insert, `nothingToSave` the silent fall-through when every
edited row was skipped. -/
inductive CreateOutcome where
  | duplicateOrderId
  | missingOrderId
  | emptyList
  | saved
  | nothingToSave
deriving DecidableEq, Repr

/-- A new ledger row built by the save loop: fresh `Unique ID`, the order's id
and client, `Priority = "Normal"`, `Current Stage = STAGES[0]`, remaining
fields from the draft row. -/
def mkBatch (orderId client : String) (uid : String) (r : DraftRow) : Batch :=
  ⟨uid, orderId, client, r.dueDate, "Normal", r.productName, r.color, r.articleNo,
    r.sizeVariant, r.totalQty, STAGES.getD 0 "", r.notes⟩

/-- Rows kept by the save loop: nonempty product name and nonzero quantity
(`if pd.isna(...) or row['Product Name'] == "" or row['Total Qty'] == 0: continue`). -/
def keptRows (draft : List DraftRow) : List DraftRow :=
  draft.filter (fun r => r.productName != "" && r.totalQty != 0)

/-- The SAVE FINAL ORDER handler. `is_duplicate` is computed only for a
nonempty order id; a duplicate id blocks the save; otherwise an empty order id
or an empty edited draft errors out; otherwise every kept row is appended with
a fresh id (`mkId i` models `str(uuid.uuid4())[:8]` for the i-th kept row).
No duplicate-line-item check happens here. -/
def createOrder (df : List Batch) (orderId client : String) (draft : List DraftRow)
    (mkId : Nat → String) : CreateOutcome × List Batch :=
  if orderId != "" && df.any (fun b => b.orderId == orderId) then (.duplicateOrderId, df)
  else if orderId == "" then (.missingOrderId, df)
  else if draft.isEmpty then (.emptyList, df)
  else if (keptRows draft).length > 0 then
    (.saved, df ++ (keptRows draft).enum.map (fun p => mkBatch orderId client (mkId p.1) p.2))
  else (.nothingToSave, df)

/-- C9: creating an order whose id already exists in the ledger is rejected
with the duplicate-order-id error and the ledger is returned unchanged — no
batch is created. -/
theorem duplicate_order_id_rejected :
    ∀ (df : List Batch) (orderId client : String) (draft : List DraftRow) (mkId : Nat → String),
      orderId ≠ "" → (∃ b ∈ df, b.orderId = orderId) →
      createOrder df orderId client draft mkId = (.duplicateOrderId, df) := by
  intro df orderId client draft mkId hne hex
  have hany : df.any (fun b => b.orderId == orderId) = true := by
    obtain ⟨b, hb, hid⟩ := hex
    exact List.any_eq_true.mpr ⟨b, hb, by simp [hid]⟩
  simp [createOrder, hne, hany]

/-- Witness for `duplicate_order_id_rejected`: re-creating order O1 over
`sampleOrder` is rejected and leaves the ledger as it was. -/
theorem duplicate_order_id_rejected_witness :
    createOrder sampleOrder "O1" "Adidas"
      [⟨"Tee", "White", "T-1", "M", 3, none, ""⟩] (fun n => "n" ++ toString n) =
      (.duplicateOrderId, sampleOrder) :=
  duplicate_order_id_rejected sampleOrder "O1" "Adidas"
    [⟨"Tee", "White", "T-1", "M", 3, none, ""⟩] (fun n => "n" ++ toString n)
    (by decide)
    ⟨⟨"b1", "O1", "Nike", none, "Normal", "Hoodie", "Black", "HD-X", "M", 6, "3- Cutting", ""⟩,
      by decide, rfl⟩

/-- A submitted draft whose two rows share the (Product Name, Color, Article No)
triple — e.g. two size variants of the same product group. -/
def duplicateDraft : List DraftRow :=
  [⟨"Hoodie", "Black", "HD-X", "M", 5, none, ""⟩,
   ⟨"Hoodie", "Black", "HD-X", "L", 7, none, ""⟩]

/-- C3 is false on the code: the save step performs no duplicate-line-item
check, so a submitted set containing two rows with the same
(Product Name, Color, Article No) triple is *not* rejected — both rows are
inserted as batches (the ledger does change). -/
theorem duplicate_line_items_inserted_counterexample :
    ¬ (∀ (df : List Batch) (orderId client : String) (draft : List DraftRow) (mkId : Nat → String),
        (∃ i j, ∃ (hi : i < draft.length) (hj : j < draft.length), i ≠ j ∧
          draft[i].productName = draft[j].productName ∧
          draft[i].color = draft[j].color ∧
          draft[i].articleNo = draft[j].articleNo) →
        (createOrder df orderId client draft mkId).2 = df) := by
  intro hclaim
  have h := hclaim [] "O1" "Nike" duplicateDraft (fun n => "n" ++ toString n)
    ⟨0, 1, by decide, by decide, by decide, rfl, rfl, rfl⟩
  have hlen := congrArg List.length h
  simp [createOrder, keptRows, duplicateDraft] at hlen

/-- C3 amended: duplicate (Product Name, Color, Article No) detection happens
only against the in-session draft, in the Add to List handler: adding a product
group whose triple already occurs in the draft is blocked with a warning and
the draft is unchanged. The save step performs no duplicate check: every kept
row (nonempty product, nonzero quantity) of the submitted set is inserted as
its own batch — rows sharing a triple included — never merged and never
rejected. -/
theorem duplicate_check_draft_only :
    (∀ (draft : List DraftRow) (pName pColor artNo : String)
        (sizeInputs : List (String × Nat)) (pDueDate : Option Int),
      pName ≠ "" → 0 < (sizeInputs.map (fun sq => sq.2)).sum →
      (∃ it ∈ draft, it.productName = pName ∧ it.color = checkColor pColor ∧
        it.articleNo = artNo) →
      addToList draft pName pColor artNo sizeInputs pDueDate = (.duplicateBlocked, draft)) ∧
    (∀ (df : List Batch) (orderId client : String) (draft : List DraftRow) (mkId : Nat → String),
      orderId ≠ "" → (∀ b ∈ df, b.orderId ≠ orderId) → draft ≠ [] → keptRows draft ≠ [] →
      (createOrder df orderId client draft mkId).1 = .saved ∧
      (createOrder df orderId client draft mkId).2.length = df.length + (keptRows draft).length ∧
      (∀ i (hi : i < (keptRows draft).length),
        ((createOrder df orderId client draft mkId).2)[df.length + i]? =
          some (mkBatch orderId client (mkId i) ((keptRows draft).get ⟨i, hi⟩)))) := by
  constructor
  · intro draft pName pColor artNo sizeInputs pDueDate hname htotal hex
    have hany : draft.any (fun it => it.productName == pName && it.color == checkColor pColor &&
        it.articleNo == artNo) = true := by
      obtain ⟨it, hit, h1, h2, h3⟩ := hex
      exact List.any_eq_true.mpr ⟨it, hit, by simp [h1, h2, h3]⟩
    simp [addToList, hname, htotal, hany]
  · intro df orderId client draft mkId hne hnodup hdraft hkept
    have hany : df.any (fun b => b.orderId == orderId) = false := by
      rw [List.any_eq_false]
      intro b hb
      simp [hnodup b hb]
    have hlen : 0 < (keptRows draft).length := List.length_pos.mpr hkept
    have hres : createOrder df orderId client draft mkId =
        (.saved, df ++ (keptRows draft).enum.map (fun p => mkBatch orderId client (mkId p.1) p.2)) := by
      simp [createOrder, hne, hany, hdraft, hlen, Nat.pos_iff_ne_zero.mp hlen]
    refine ⟨by simp [hres], by simp [hres], ?_⟩
    intro i hi
    rw [hres]
    simp only
    rw [List.getElem?_append_right (Nat.le_add_right df.length i)]
    have hidx : df.length + i - df.length = i := by omega
    rw [hidx, List.getElem?_map, List.getElem?_enum]
    simp [List.getElem?_eq_getElem hi]

/-- Witness for `duplicate_check_draft_only`: adding a second Hoodie/Black/HD-X
group to a draft is blocked, while saving a draft with two rows sharing that
triple inserts both as batches. -/
theorem duplicate_check_draft_only_witness :
    addToList [⟨"Hoodie", "Black", "HD-X", "M", 5, none, ""⟩] "Hoodie" "Black" "HD-X"
        [("L", 7)] none =
      (.duplicateBlocked, [⟨"Hoodie", "Black", "HD-X", "M", 5, none, ""⟩]) ∧
    (createOrder [] "O1" "Nike" duplicateDraft (fun n => "n" ++ toString n)).1 = .saved ∧
    (createOrder [] "O1" "Nike" duplicateDraft (fun n => "n" ++ toString n)).2.length =
      0 + (keptRows duplicateDraft).length := by
  have T2 := duplicate_check_draft_only.2 [] "O1" "Nike" duplicateDraft
    (fun n => "n" ++ toString n) (by decide) (by simp) (by decide) (by decide)
  exact ⟨duplicate_check_draft_only.1 [⟨"Hoodie", "Black", "HD-X", "M", 5, none, ""⟩]
      "Hoodie" "Black" "HD-X" [("L", 7)] none (by decide) (by decide)
      ⟨⟨"Hoodie", "Black", "HD-X", "M", 5, none, ""⟩, by decide, rfl, rfl, rfl⟩,
    T2.1, T2.2.1⟩

/-! ## MANAGE DATA edit/delete, and ledgers reachable by the public operations -/

/-- The "SAVE CHANGES FOR {order}" handler of MANAGE DATA: drop every row whose
id belongs to the order (`df = df[~df['Unique ID'].isin(old_ids)]`) and append
the edited rows (deleted rows are simply absent from the editor's output). The
editor clamps `Total Qty` only to `min_value=0`, so an edited row may carry
quantity 0. -/
def editOrder (df : List Batch) (oid : String) (editedRows : List Batch) : List Batch :=
  let oldIds := (df.filter (fun b => b.orderId == oid)).map (fun b => b.uniqueId)
  (df.filter (fun b => !(oldIds.contains b.uniqueId))) ++ editedRows

/-- One public mutation of the ledger, as the spec enumerates them. -/
inductive Op where
  | create (orderId client : String) (draft : List DraftRow) (mkId : Nat → String)
  | move (bid newStage : String) (moveQty : Nat) (freshId : String)
  | bulk (ids : List String) (newStage : String)
  | edit (oid : String) (rows : List Batch)

/-- Apply one public operation to the ledger. -/
def applyOp (df : List Batch) : Op → List Batch
  | .create oid c d m => (createOrder df oid c d m).2
  | .move b s q f => (moveBatch df b s q f).2
  | .bulk ids s => bulkMove df ids s
  | .edit oid rows => editOrder df oid rows

/-- Ledgers reachable from the empty ledger by the public operations. -/
inductive Reachable : List Batch → Prop
  | empty : Reachable []
  | step {df : List Batch} (op : Op) : Reachable df → Reachable (applyOp df op)

/-- C2 is false on the code: the MANAGE DATA editor accepts `Total Qty = 0`
(`min_value=0`) and its save handler persists it, so a ledger containing a
quantity-0 batch is reachable: create order O1 with one 5-piece row, then edit
O1 replacing that row with a quantity-0 row. -/
theorem zero_qty_reachable_counterexample :
    ¬ (∀ df, Reachable df → ∀ b ∈ df, 0 < b.totalQty) := by
  intro hclaim
  have h1 : Reachable (applyOp [] (.create "O1" "Nike"
      [⟨"Hoodie", "Black", "HD-X", "M", 5, none, ""⟩] (fun _ => "b1"))) :=
    Reachable.step _ Reachable.empty
  have h2 : Reachable (applyOp (applyOp [] (.create "O1" "Nike"
      [⟨"Hoodie", "Black", "HD-X", "M", 5, none, ""⟩] (fun _ => "b1")))
      (.edit "O1" [⟨"b1", "O1", "Nike", none, "Normal", "Hoodie", "Black", "HD-X", "M", 0,
        "3- Cutting", ""⟩])) :=
    Reachable.step _ h1
  have h := hclaim _ h2
    ⟨"b1", "O1", "Nike", none, "Normal", "Hoodie", "Black", "HD-X", "M", 0, "3- Cutting", ""⟩
    (by decide)
  exact absurd h (by decide)

/-- A raw row of the Create Order review editor
(`st.data_editor(draft_df, num_rows="dynamic", ...)`): the editor configures
only the Due Date column, so the `Total Qty` cell is *unclamped* — it may hold
any integer, or be blank (pandas `NaN`, modelled as `none`); rows added
dynamically in the editor may also leave the product name blank. -/
structure RawDraftRow where
  productName : String
  color : String
  articleNo : String
  sizeVariant : String
  totalQty : Option Int
  dueDate : Option Int
  notes : String
deriving DecidableEq, Repr

/-- The SAVE FINAL ORDER skip test on the raw editor rows
(`if pd.isna(row['Product Name']) or row['Product Name'] == "" or
row['Total Qty'] == 0: continue`): a row is dropped only for an empty product
name or a quantity *equal to 0*. A blank quantity is kept, because the Python
test `NaN == 0` is false. Every kept row is inserted verbatim into the ledger
by the save loop (fresh id, stage `STAGES[0]`). -/
def keptRawRows (rawDraft : List RawDraftRow) : List RawDraftRow :=
  rawDraft.filter (fun r => r.productName != "" && r.totalQty != some 0)

/-- One positivity-guarded step: a Move press with its quantity input clamped
by the UI (`min_value=1, max_value=int(row['Total Qty'])`), a bulk move, or
deletion of rows through the MANAGE DATA editor (edited rows = a sublist of
the order's previous rows, no field changed). Creation and quantity editing
are deliberately *not* guarded steps: the MANAGE DATA editor admits quantity 0
and the Create Order review editor admits any raw quantity at all. -/
inductive GuardedStep : List Batch → List Batch → Prop
  | move (df : List Batch) (bid s : String) (q : Nat) (f : String)
      (hq : 1 ≤ q)
      (hmax : ∀ b, df.find? (fun x => x.uniqueId == bid) = some b → q ≤ b.totalQty) :
      GuardedStep df (moveBatch df bid s q f).2
  | bulk (df : List Batch) (ids : List String) (s : String) :
      GuardedStep df (bulkMove df ids s)
  | remove (df : List Batch) (oid : String) (rows : List Batch)
      (hsub : ∀ b ∈ rows, b ∈ df) :
      GuardedStep df (editOrder df oid rows)

/-- Reachability from a given starting ledger by guarded steps only. -/
inductive GuardedReach : List Batch → List Batch → Prop
  | refl (df : List Batch) : GuardedReach df df
  | step {df df' df'' : List Batch} :
      GuardedReach df df' → GuardedStep df' df'' → GuardedReach df df''

lemma moveBatch_preserves_pos (df : List Batch) (bid s : String) (q : Nat) (f : String)
    (hq1 : 1 ≤ q)
    (hmax : ∀ b, df.find? (fun x => x.uniqueId == bid) = some b → q ≤ b.totalQty)
    (hpos : ∀ b ∈ df, 0 < b.totalQty) :
    ∀ b ∈ (moveBatch df bid s q f).2, 0 < b.totalQty := by
  intro b hb
  cases hfind : df.find? (fun x => x.uniqueId == bid) with
  | none =>
    have hres : (moveBatch df bid s q f).2 = df := by simp [moveBatch, hfind]
    rw [hres] at hb
    exact hpos b hb
  | some row =>
    have hqr : q ≤ row.totalQty := hmax row hfind
    by_cases hlt : stageIndex s < stageIndex row.currentStage
    · have hres : (moveBatch df bid s q f).2 = df := by simp [moveBatch, hfind, hlt]
      rw [hres] at hb
      exact hpos b hb
    · by_cases heq : s = row.currentStage
      · have hres : (moveBatch df bid s q f).2 = df := by simp [moveBatch, hfind, hlt, heq]
        rw [hres] at hb
        exact hpos b hb
      · by_cases hqe : q = row.totalQty
        · -- full move: every row keeps its own quantity
          have hres : (moveBatch df bid s q f).2 =
              df.map (fun a => if a.uniqueId == bid then { a with currentStage := s } else a) := by
            simp [moveBatch, hfind, hlt, heq, hqe]
          rw [hres] at hb
          obtain ⟨a, ha, hab⟩ := List.mem_map.mp hb
          subst hab
          by_cases hcase : a.uniqueId == bid <;> simpa [hcase] using hpos a ha
        · -- split: `q < row qty`, so both `row qty - q` and `q` are positive
          have hlt2 : q < row.totalQty := by omega
          have hres : (moveBatch df bid s q f).2 =
              (df.map (fun a => if a.uniqueId == bid then { a with totalQty := row.totalQty - q } else a)) ++
              [{ row with uniqueId := f, totalQty := q, currentStage := s }] := by
            simp [moveBatch, hfind, hlt, heq, hqe]
          rw [hres] at hb
          rcases List.mem_append.mp hb with h | h
          · obtain ⟨a, ha, hab⟩ := List.mem_map.mp h
            subst hab
            by_cases hcase : a.uniqueId == bid
            · simp [hcase]
              omega
            · simpa [hcase] using hpos a ha
          · simp at h
            subst h
            simpa using hq1

lemma bulkMove_preserves_pos (df : List Batch) (ids : List String) (s : String)
    (hpos : ∀ b ∈ df, 0 < b.totalQty) :
    ∀ b ∈ bulkMove df ids s, 0 < b.totalQty := by
  intro b hb
  obtain ⟨a, ha, hab⟩ := List.mem_map.mp hb
  subst hab
  by_cases hcase : a.uniqueId ∈ ids <;> simpa [hcase] using hpos a ha

lemma editOrder_sublist_preserves_pos (df : List Batch) (oid : String) (rows : List Batch)
    (hsub : ∀ b ∈ rows, b ∈ df) (hpos : ∀ b ∈ df, 0 < b.totalQty) :
    ∀ b ∈ editOrder df oid rows, 0 < b.totalQty := by
  intro b hb
  rcases List.mem_append.mp hb with h | h
  · exact hpos b (List.mem_filter.mp h).1
  · exact hpos b (hsub b h)

/-- C2 amended: batch-quantity positivity is preserved by the guarded
operations: from any all-positive ledger, any sequence of Move presses (with
the UI-clamped quantity `1 ≤ q ≤ row qty`), bulk moves, and MANAGE DATA row
deletions yields an all-positive ledger. Neither order creation nor order
editing guarantees this: the MANAGE DATA edit accepts `Total Qty = 0`
(`min_value=0`) and persists it (the reachability counterexample), and the
Create Order review editor leaves `Total Qty` unclamped while its save loop
skips exactly the rows with an empty product name or a quantity equal to 0 —
so a raw row with a negative or blank quantity is kept and persisted by
create order, as the last two conjuncts make explicit. -/
theorem guarded_ops_preserve_pos_qty :
    (∀ df df', GuardedReach df df' → (∀ b ∈ df, 0 < b.totalQty) →
      ∀ b ∈ df', 0 < b.totalQty) ∧
    (∀ (rawDraft : List RawDraftRow) (r : RawDraftRow),
      r ∈ keptRawRows rawDraft ↔
        r ∈ rawDraft ∧ r.productName ≠ "" ∧ r.totalQty ≠ some 0) ∧
    keptRawRows [⟨"Hoodie", "Black", "HD-X", "M", some (-5), none, ""⟩,
        ⟨"Hoodie", "Black", "HD-X", "L", none, none, ""⟩,
        ⟨"Hoodie", "Black", "HD-X", "S", some 0, none, ""⟩] =
      [⟨"Hoodie", "Black", "HD-X", "M", some (-5), none, ""⟩,
        ⟨"Hoodie", "Black", "HD-X", "L", none, none, ""⟩] := by
  refine ⟨?_, ?_, by decide⟩
  · intro df df' hreach hpos
    induction hreach with
    | refl => exact hpos
    | step hr hstep ih =>
      cases hstep with
      | move bid s q f hq hmax => exact moveBatch_preserves_pos _ bid s q f hq hmax ih
      | bulk ids s => exact bulkMove_preserves_pos _ ids s ih
      | remove oid rows hsub => exact editOrder_sublist_preserves_pos _ oid rows hsub ih
  · intro rawDraft r
    simp [keptRawRows, List.mem_filter, and_assoc]

/-- Witness for `guarded_ops_preserve_pos_qty`: a concrete bulk-move step from
`sampleOrder` keeps the moved batch's quantity positive, and a raw editor row
with quantity −5 survives the save loop's skip test. -/
theorem guarded_ops_preserve_pos_qty_witness :
    0 < (⟨"b1", "O1", "Nike", none, "Normal", "Hoodie", "Black", "HD-X", "M", 6,
      "5- Stitching", ""⟩ : Batch).totalQty ∧
    (⟨"Hoodie", "Black", "HD-X", "M", some (-5), none, ""⟩ : RawDraftRow) ∈
      keptRawRows [⟨"Hoodie", "Black", "HD-X", "M", some (-5), none, ""⟩] :=
  ⟨guarded_ops_preserve_pos_qty.1 sampleOrder
      (bulkMove sampleOrder ["b1"] "5- Stitching")
      (GuardedReach.step (GuardedReach.refl sampleOrder)
        (GuardedStep.bulk sampleOrder ["b1"] "5- Stitching"))
      (by decide)
      ⟨"b1", "O1", "Nike", none, "Normal", "Hoodie", "Black", "HD-X", "M", 6, "5- Stitching", ""⟩
      (by decide),
    (guarded_ops_preserve_pos_qty.2.1 [⟨"Hoodie", "Black", "HD-X", "M", some (-5), none, ""⟩]
      ⟨"Hoodie", "Black", "HD-X", "M", some (-5), none, ""⟩).mpr
      ⟨by decide, by decide, by decide⟩⟩

/-! ## History view: order-level status and its display ordering -/

/-- The History view's per-order rank and status label: all rows Shipped →
rank 3, `🚢 SHIPPED`; all rows Shipped-or-Packing (but not all Shipped) →
rank 1, `✅ COMPLETED`; otherwise rank 2, `⏳ IN PROGRESS`. Counts are row
counts (`len`), as in the source. -/
def historyRank (orderData : List Batch) : Nat × String :=
  let total_items := orderData.length
  let shipped := (orderData.filter (fun b => b.currentStage == "8- Shipped")).length
  let packed := (orderData.filter (fun b => b.currentStage == "7- Packing")).length
  if shipped == total_items then (3, "🚢 SHIPPED")
  else if shipped + packed == total_items then (1, "✅ COMPLETED")
  else (2, "⏳ IN PROGRESS")

/-- `history_list.sort(key=lambda x: x["rank"])`. -/
def historySort (entries : List (Nat × String)) : List (Nat × String) :=
  entries.mergeSort (fun a b => Nat.ble a.1 b.1)

lemma historyRank_cases (o : List Batch) :
    historyRank o = (3, "🚢 SHIPPED") ∨ historyRank o = (1, "✅ COMPLETED") ∨
    historyRank o = (2, "⏳ IN PROGRESS") := by
  unfold historyRank
  dsimp only
  split
  · exact Or.inl rfl
  · split
    · exact Or.inr (Or.inl rfl)
    · exact Or.inr (Or.inr rfl)

lemma rank_of_label (o : List Batch) :
    ((historyRank o).2 = "✅ COMPLETED" → (historyRank o).1 = 1) ∧
    ((historyRank o).2 = "⏳ IN PROGRESS" → (historyRank o).1 = 2) ∧
    ((historyRank o).2 = "🚢 SHIPPED" → (historyRank o).1 = 3) := by
  rcases historyRank_cases o with h | h | h <;> rw [h] <;>
    exact ⟨fun hl => by first | rfl | exact absurd hl (by decide),
           fun hl => by first | rfl | exact absurd hl (by decide),
           fun hl => by first | rfl | exact absurd hl (by decide)⟩

lemma historySort_pairwise (l : List (Nat × String)) :
    List.Pairwise (fun a b => Nat.ble a.1 b.1 = true) (historySort l) := by
  unfold historySort
  exact List.sorted_mergeSort
    (by intro a b c hab hbc; simp [Nat.ble_eq] at *; omega)
    (by intro a b; simp [Nat.ble_eq]; omega) l

lemma mem_historySort {x : Nat × String} {l : List (Nat × String)} :
    x ∈ historySort l ↔ x ∈ l :=
  (List.mergeSort_perm l (fun a b => Nat.ble a.1 b.1)).mem_iff

lemma length_filter_disjoint_add (l : List Batch) (p q : Batch → Bool)
    (hdis : ∀ b ∈ l, ¬(p b = true ∧ q b = true)) :
    (l.filter p).length + (l.filter q).length = (l.filter (fun b => p b || q b)).length := by
  induction l with
  | nil => simp
  | cons a l ih =>
    have hrest : ∀ b ∈ l, ¬(p b = true ∧ q b = true) :=
      fun b hb => hdis b (List.mem_cons_of_mem a hb)
    have hih := ih hrest
    by_cases hp : p a = true
    · have hq : ¬ q a = true := fun h => hdis a (List.mem_cons_self a l) ⟨hp, h⟩
      simp [List.filter_cons, hp, hq]
      omega
    · by_cases hq : q a = true <;> simp [List.filter_cons, hp, hq] <;> omega

/-- C8: an order's History status is `🚢 SHIPPED` (rank 3) when all its rows
are at 8- Shipped, `✅ COMPLETED` (rank 1) when all rows are at 8- Shipped or
7- Packing but not all Shipped, and `⏳ IN PROGRESS` (rank 2) otherwise; an
order with rows at {Packing, Packing, Shipped} is `✅ COMPLETED`; and after the
rank sort, every COMPLETED entry precedes every IN PROGRESS entry, every
IN PROGRESS entry precedes every SHIPPED entry, and every COMPLETED entry
precedes every SHIPPED entry. -/
theorem order_status_and_history_ranking :
    (∀ orderData : List Batch,
      ((∀ b ∈ orderData, b.currentStage = "8- Shipped") →
        historyRank orderData = (3, "🚢 SHIPPED")) ∧
      ((∀ b ∈ orderData, b.currentStage = "8- Shipped" ∨ b.currentStage = "7- Packing") →
        (∃ b ∈ orderData, b.currentStage ≠ "8- Shipped") →
        historyRank orderData = (1, "✅ COMPLETED")) ∧
      ((∃ b ∈ orderData, b.currentStage ≠ "8- Shipped" ∧ b.currentStage ≠ "7- Packing") →
        historyRank orderData = (2, "⏳ IN PROGRESS"))) ∧
    (∀ b1 b2 b3 : Batch, b1.currentStage = "7- Packing" → b2.currentStage = "7- Packing" →
      b3.currentStage = "8- Shipped" → historyRank [b1, b2, b3] = (1, "✅ COMPLETED")) ∧
    (∀ (orders : List (List Batch)) (i j : Nat)
        (hi : i < (historySort (orders.map historyRank)).length)
        (hj : j < (historySort (orders.map historyRank)).length),
      (((historySort (orders.map historyRank))[i].2 = "✅ COMPLETED" ∧
        (historySort (orders.map historyRank))[j].2 = "⏳ IN PROGRESS") ∨
       ((historySort (orders.map historyRank))[i].2 = "✅ COMPLETED" ∧
        (historySort (orders.map historyRank))[j].2 = "🚢 SHIPPED") ∨
       ((historySort (orders.map historyRank))[i].2 = "⏳ IN PROGRESS" ∧
        (historySort (orders.map historyRank))[j].2 = "🚢 SHIPPED")) → i < j) := by
  refine ⟨?_, ?_, ?_⟩
  · intro orderData
    refine ⟨?_, ?_, ?_⟩
    · intro hall
      have hfe : orderData.filter (fun b => b.currentStage == "8- Shipped") = orderData :=
        List.filter_eq_self.mpr (fun b hb => by simp [hall b hb])
      simp [historyRank, hfe]
    · intro hall hex
      have hlt : (orderData.filter (fun b => b.currentStage == "8- Shipped")).length <
          orderData.length := by
        rw [List.length_filter_lt_length_iff_exists]
        obtain ⟨b, hb, hne⟩ := hex
        exact ⟨b, hb, by simp [hne]⟩
      have hsum : (orderData.filter (fun b => b.currentStage == "8- Shipped")).length +
          (orderData.filter (fun b => b.currentStage == "7- Packing")).length =
          orderData.length := by
        rw [length_filter_disjoint_add orderData _ _
          (fun b _ hboth => by
            have h1 : b.currentStage = "8- Shipped" := by simpa using hboth.1
            have h2 : b.currentStage = "7- Packing" := by simpa using hboth.2
            rw [h1] at h2
            exact absurd h2 (by decide))]
        have hfe : orderData.filter (fun b =>
            b.currentStage == "8- Shipped" || b.currentStage == "7- Packing") = orderData :=
          List.filter_eq_self.mpr (fun b hb => by
            rcases hall b hb with h | h <;> simp [h])
        rw [hfe]
      simp [historyRank, Nat.ne_of_lt hlt, hsum]
    · intro hex
      obtain ⟨b, hb, hns, hnp⟩ := hex
      have hlt : (orderData.filter (fun b =>
          b.currentStage == "8- Shipped" || b.currentStage == "7- Packing")).length <
          orderData.length := by
        rw [List.length_filter_lt_length_iff_exists]
        exact ⟨b, hb, by simp [hns, hnp]⟩
      have hsum : (orderData.filter (fun b => b.currentStage == "8- Shipped")).length +
          (orderData.filter (fun b => b.currentStage == "7- Packing")).length =
          (orderData.filter (fun b =>
            b.currentStage == "8- Shipped" || b.currentStage == "7- Packing")).length :=
        length_filter_disjoint_add orderData _ _
          (fun b _ hboth => by
            have h1 : b.currentStage = "8- Shipped" := by simpa using hboth.1
            have h2 : b.currentStage = "7- Packing" := by simpa using hboth.2
            rw [h1] at h2
            exact absurd h2 (by decide))
      have hs_le : (orderData.filter (fun b => b.currentStage == "8- Shipped")).length ≤
          (orderData.filter (fun b =>
            b.currentStage == "8- Shipped" || b.currentStage == "7- Packing")).length := by
        omega
      have h1 : ¬ ((orderData.filter (fun b => b.currentStage == "8- Shipped")).length =
          orderData.length) := by omega
      have h2 : ¬ ((orderData.filter (fun b => b.currentStage == "8- Shipped")).length +
          (orderData.filter (fun b => b.currentStage == "7- Packing")).length =
          orderData.length) := by omega
      simp [historyRank, h1, h2]
  · intro b1 b2 b3 h1 h2 h3
    simp [historyRank, List.filter_cons, h1, h2, h3]
  · intro orders i j hi hj hcase
    have hrank_i : ∃ o : List Batch,
        historyRank o = (historySort (orders.map historyRank))[i] := by
      have hmem := mem_historySort.mp (List.getElem_mem hi)
      obtain ⟨o, _, ho⟩ := List.mem_map.mp hmem
      exact ⟨o, ho⟩
    have hrank_j : ∃ o : List Batch,
        historyRank o = (historySort (orders.map historyRank))[j] := by
      have hmem := mem_historySort.mp (List.getElem_mem hj)
      obtain ⟨o, _, ho⟩ := List.mem_map.mp hmem
      exact ⟨o, ho⟩
    obtain ⟨oi, hoi⟩ := hrank_i
    obtain ⟨oj, hoj⟩ := hrank_j
    have hri : ((historySort (orders.map historyRank))[i].2 = "✅ COMPLETED" →
          (historySort (orders.map historyRank))[i].1 = 1) ∧
        ((historySort (orders.map historyRank))[i].2 = "⏳ IN PROGRESS" →
          (historySort (orders.map historyRank))[i].1 = 2) ∧
        ((historySort (orders.map historyRank))[i].2 = "🚢 SHIPPED" →
          (historySort (orders.map historyRank))[i].1 = 3) := by
      rw [← hoi]; exact rank_of_label oi
    have hrj : ((historySort (orders.map historyRank))[j].2 = "✅ COMPLETED" →
          (historySort (orders.map historyRank))[j].1 = 1) ∧
        ((historySort (orders.map historyRank))[j].2 = "⏳ IN PROGRESS" →
          (historySort (orders.map historyRank))[j].1 = 2) ∧
        ((historySort (orders.map historyRank))[j].2 = "🚢 SHIPPED" →
          (historySort (orders.map historyRank))[j].1 = 3) := by
      rw [← hoj]; exact rank_of_label oj
    have hij : (historySort (orders.map historyRank))[i].1 <
        (historySort (orders.map historyRank))[j].1 := by
      rcases hcase with ⟨ha, hb⟩ | ⟨ha, hb⟩ | ⟨ha, hb⟩
      · rw [hri.1 ha, hrj.2.1 hb]; omega
      · rw [hri.1 ha, hrj.2.2 hb]; omega
      · rw [hri.2.1 ha, hrj.2.2 hb]; omega
    by_contra hnot
    push_neg at hnot
    rcases Nat.eq_or_lt_of_le hnot with heq | hlt
    · subst heq
      omega
    · have := (List.pairwise_iff_getElem.mp (historySort_pairwise (orders.map historyRank)))
        j i hj hi hlt
      simp [Nat.ble_eq] at this
      omega

/-- Witness for `order_status_and_history_ranking`: an order with rows at
{Packing, Packing, Shipped} is `✅ COMPLETED`, via both the all-or-nothing
characterization and the scenario conjunct. -/
theorem order_status_and_history_ranking_witness :
    historyRank [⟨"b1", "O1", "Nike", none, "Normal", "Hoodie", "Black", "HD-X", "M", 6,
        "7- Packing", ""⟩,
      ⟨"b2", "O1", "Nike", none, "Normal", "Hoodie", "Black", "HD-X", "L", 4, "7- Packing", ""⟩,
      ⟨"b3", "O1", "Nike", none, "Normal", "Hoodie", "Black", "HD-X", "S", 2, "8- Shipped", ""⟩] =
      (1, "✅ COMPLETED") ∧
    historyRank [⟨"b3", "O1", "Nike", none, "Normal", "Hoodie", "Black", "HD-X", "S", 2,
      "8- Shipped", ""⟩] = (3, "🚢 SHIPPED") := by
  constructor
  · exact order_status_and_history_ranking.2.1
      ⟨"b1", "O1", "Nike", none, "Normal", "Hoodie", "Black", "HD-X", "M", 6, "7- Packing", ""⟩
      ⟨"b2", "O1", "Nike", none, "Normal", "Hoodie", "Black", "HD-X", "L", 4, "7- Packing", ""⟩
      ⟨"b3", "O1", "Nike", none, "Normal", "Hoodie", "Black", "HD-X", "S", 2, "8- Shipped", ""⟩
      rfl rfl rfl
  · exact (order_status_and_history_ranking.1
      [⟨"b3", "O1", "Nike", none, "Normal", "Hoodie", "Black", "HD-X", "S", 2,
        "8- Shipped", ""⟩]).1
      (by intro b hb; simp at hb; subst hb; rfl)

end ProductionApp
